import Mathlib

/-!
Shallow embedding of the blogicum application's post-visibility, listing,
pagination and mutation-authorization logic (blog/models.py, blog/views.py),
together with proofs of the spec's claims about it.

Modelling conventions:
* timestamps are integers (the code only compares them);
* foreign keys are stored as ids (`Option Nat` when nullable), rows live in a
  `Store`;
* the ORM's `order_by` on a single column is modelled as a stable insertion
  sort over the table kept in primary-key (insertion) order, which is what the
  backing database returns for the default queryset;
* Python attribute access on `None` (the `post.category.is_published`
  expression in `post_detail`) is modelled by `Option`: `none` is the
  `AttributeError` path.
-/

namespace Blogicum

/-- Timestamps: only their total order is used by the code. -/
abbrev Timestamp := Int

/-- Category row (models.py, class Category). -/
structure Category where
  id : Nat
  slug : String
  is_published : Bool
  deriving Repr, DecidableEq

/-- Location row (models.py, class Location). -/
structure Location where
  id : Nat
  name : String
  is_published : Bool
  deriving Repr, DecidableEq

/-- Post row (models.py, class Post). `location` and `category` are nullable
foreign keys. -/
structure Post where
  id : Nat
  title : String
  pub_date : Timestamp
  author : Nat
  location : Option Nat
  category : Option Nat
  is_published : Bool
  deriving Repr, DecidableEq

/-- Comment row (models.py, class Comment). -/
structure Comment where
  id : Nat
  post : Nat
  author : Nat
  text : String
  created_at : Timestamp
  is_published : Bool
  deriving Repr, DecidableEq

/-- The persisted entity store. Each table is kept in primary-key
(insertion) order. -/
structure Store where
  categories : List Category
  locations : List Location
  posts : List Post
  comments : List Comment
  deriving Repr, DecidableEq

/-- Primary-key lookup in the category table. -/
def findCategory (s : Store) (cid : Nat) : Option Category :=
  s.categories.find? (fun c => c.id == cid)

/-- Primary-key lookup in the post table (`get_object_or_404(Post, pk=...)`
returns `none` for the 404 path). -/
def findPost (s : Store) (pid : Nat) : Option Post :=
  s.posts.find? (fun p => p.id == pid)

/-- The join condition `category__is_published=True` of
`PostQuerySet.published` (models.py lines 78-83): a null category matches no
row, so the condition is false for it. -/
def categoryIsPublished (s : Store) (p : Post) : Bool :=
  match p.category with
  | none => false
  | some cid =>
    match findCategory s cid with
    | none => false
    | some c => c.is_published

/-- Row predicate of the `PostQuerySet.published` filter
(models.py lines 78-83). -/
def publishedPred (s : Store) (now : Timestamp) (p : Post) : Bool :=
  p.is_published && decide (p.pub_date ≤ now) && categoryIsPublished s p

/-- `PostQuerySet.published()` applied to a queryset. -/
def published (s : Store) (now : Timestamp) (qs : List Post) : List Post :=
  qs.filter (publishedPred s now)

/-- `Post.published`, the `PublishedManager` queryset (models.py lines 85-87):
the default queryset with `published()` applied. -/
def publishedManagerQueryset (s : Store) (now : Timestamp) : List Post :=
  published s now s.posts

/-- The visibility predicate as worded by the spec, for the refinement
comparison: `is_published == true AND pub_date <= now AND category is not
null AND category.is_published == true`. -/
def spec_is_publicly_visible (s : Store) (now : Timestamp) (p : Post) : Bool :=
  p.is_published && decide (p.pub_date ≤ now) && !(p.category == none) &&
    (match p.category.bind (findCategory s) with
     | none => false
     | some c => c.is_published)

variable {α : Type}

/-- Insert into a list sorted on `key`, keeping the new element after no
equal key (so that the enclosing sort is stable). -/
def insertLe (key : α → Int) (x : α) : List α → List α
  | [] => [x]
  | y :: ys => if key x ≤ key y then x :: y :: ys else y :: insertLe key x ys

/-- Stable sort on an integer key: the model of the ORM's `order_by` on a
single column over a table kept in primary-key order. -/
def orderBy (key : α → Int) : List α → List α
  | [] => []
  | x :: xs => insertLe key x (orderBy key xs)

/-- The rows of the `comments` related manager of a post. -/
def commentRows (s : Store) (pid : Nat) : List Comment :=
  s.comments.filter (fun c => c.post == pid)

/-- The `Count('comments')` aggregate: number of comment rows referencing the
post, with no condition on their publication state. -/
def comment_count (s : Store) (p : Post) : Nat :=
  (commentRows s p.id).length

/-- `annotate_posts_with_comments` (views.py lines 22-26): annotate each post
with `comment_count` and order by `pub_date` descending. -/
def annotate_posts_with_comments (s : Store) (qs : List Post) :
    List (Post × Nat) :=
  orderBy (fun pc => -pc.1.pub_date) (qs.map (fun p => (p, comment_count s p)))

/-- The home-page listing (views.py, `index`). -/
def index_posts (s : Store) (now : Timestamp) : List (Post × Nat) :=
  annotate_posts_with_comments s (publishedManagerQueryset s now)

/-- The category-page listing (views.py, `category_posts`):
`Post.objects.filter(category=category).published()`, annotated. Returns
`none` (404) when no published category has the slug. -/
def category_posts (s : Store) (now : Timestamp) (slug : String) :
    Option (List (Post × Nat)) :=
  match s.categories.find? (fun c => c.slug == slug && c.is_published) with
  | none => none
  | some cat =>
    some (annotate_posts_with_comments s
      (published s now (s.posts.filter (fun p => p.category == some cat.id))))

/-- The profile-page listing (views.py, `profile`): the user's posts,
filtered through `published()` unless the viewer is that user, annotated. -/
def profile_posts (s : Store) (now : Timestamp) (viewer : Option Nat)
    (userId : Nat) : List (Post × Nat) :=
  let own := s.posts.filter (fun p => p.author == userId)
  let visible := if viewer == some userId then own else published s now own
  annotate_posts_with_comments s visible

/-- The `post_is_available` expression of `post_detail` (views.py lines
60-64), with Python's evaluation order: `post.is_published`, then
`post.pub_date <= now`, then `post.category.is_published`. The last step
reads an attribute of `post.category`; when the category foreign key is null
that is `None.is_published`, an `AttributeError`, modelled as `none`. -/
def post_is_available (s : Store) (now : Timestamp) (p : Post) : Option Bool :=
  if !p.is_published then some false
  else if !(decide (p.pub_date ≤ now)) then some false
  else
    match p.category with
    | none => none
    | some cid =>
      match findCategory s cid with
      | none => none
      | some c => some c.is_published

/-- Outcome of the `post_detail` view: 404, an uncaught Python exception
(HTTP 500), or a rendered page with the post and its comment list. -/
inductive DetailResult where
  | notFound
  | attributeError
  | success (post : Post) (comments : List Comment)
  deriving Repr, DecidableEq

/-- `post_detail` (views.py lines 52-87). The viewer is `none` when
anonymous. -/
def post_detail (s : Store) (viewer : Option Nat) (post_id : Nat)
    (now : Timestamp) : DetailResult :=
  match findPost s post_id with
  | none => .notFound
  | some post =>
    match post_is_available s now post with
    | none => .attributeError
    | some avail =>
      if !(avail || (viewer == some post.author)) then .notFound
      else if viewer == some post.author then
        .success post (orderBy (fun c => c.created_at) (commentRows s post.id))
      else
        .success post (orderBy (fun c => c.created_at)
          ((commentRows s post.id).filter (fun c => c.is_published)))

/-- views.py line 19. -/
def POSTS_PER_PAGE : Nat := 10

/-- The `page` GET parameter as the paginator sees it: absent, a non-numeric
string, or an integer. -/
inductive PageArg where
  | absent
  | nonNumeric
  | num (n : Int)
  deriving Repr, DecidableEq

/-- The framework paginator's page count with `orphans = 0` and
`allow_empty_first_page = true`: `ceil(max(1, count) / per_page)`. -/
def num_pages (count per_page : Nat) : Nat :=
  (max 1 count + per_page - 1) / per_page

/-- One page of results, as handed to the template. -/
structure Page (α : Type) where
  items : List α
  number : Nat
  num_pages : Nat
  deriving Repr, DecidableEq

/-- `Page.has_next`: there is a page after this one. -/
def Page.has_next (pg : Page α) : Bool :=
  decide (pg.number < pg.num_pages)

/-- `Page.has_previous`: there is a page before this one. -/
def Page.has_previous (pg : Page α) : Bool :=
  decide (1 < pg.number)

/-- `Paginator.get_page`'s page-number resolution: a value that is not an
integer becomes 1; an integer below 1 or above `num_pages` becomes the last
page. -/
def resolvePageNumber (arg : PageArg) (np : Nat) : Nat :=
  match arg with
  | .absent => 1
  | .nonNumeric => 1
  | .num n => if n < 1 then np else if (np : Int) < n then np else n.toNat

/-- `get_page_obj` (views.py lines 29-33): `Paginator(post_list,
posts_per_page).get_page(request.GET.get('page'))`. -/
def get_page_obj (l : List α) (per_page : Nat) (arg : PageArg) : Page α :=
  let np := num_pages l.length per_page
  let number := resolvePageNumber arg np
  { items := (l.drop ((number - 1) * per_page)).take per_page
    number := number
    num_pages := np }

/-- Outcome of a mutation view's authorization prologue. -/
inductive MutationResult where
  | notFound
  | redirectToDetail (post_id : Nat)
  | proceedForm
  deriving Repr, DecidableEq

/-- The lookup and authorization prologue of `post_edit` (views.py lines
153-158): fetch the post or 404, redirect a non-author to the detail page,
otherwise continue to the form. -/
def post_edit (s : Store) (viewer : Nat) (post_id : Nat) : MutationResult :=
  match findPost s post_id with
  | none => .notFound
  | some post =>
    if post.author != viewer then .redirectToDetail post_id else .proceedForm

/-- `get_object_or_404(Comment, pk=comment_id, post_id=post_id,
author=request.user)`: the comment must exist, belong to the post, and be
authored by the viewer. -/
def findOwnedComment (s : Store) (viewer : Nat) (post_id comment_id : Nat) :
    Option Comment :=
  s.comments.find?
    (fun c => c.id == comment_id && c.post == post_id && c.author == viewer)

/-- The lookup prologue of `edit_comment` (views.py lines 202-210): a
comment not owned by the viewer is a 404, never a redirect. -/
def edit_comment (s : Store) (viewer : Nat) (post_id comment_id : Nat) :
    MutationResult :=
  match findOwnedComment s viewer post_id comment_id with
  | none => .notFound
  | some _ => .proceedForm

/-- Response of the delete views. -/
inductive DeleteResponse where
  | notFound
  | redirectToDetail (post_id : Nat)
  | confirmPage
  | redirectToProfile (userId : Nat)
  deriving Repr, DecidableEq

/-- `delete_post` (views.py lines 251-275): fetch or 404; non-author is
redirected to the detail page; a non-POST request renders the confirmation
page; a POST deletes the post (comments cascade) and redirects to the
author's profile. Returns the response and the resulting store. -/
def delete_post (s : Store) (viewer : Nat) (method : String)
    (post_id : Nat) : DeleteResponse × Store :=
  match findPost s post_id with
  | none => (.notFound, s)
  | some post =>
    if post.author != viewer then (.redirectToDetail post_id, s)
    else if method != "POST" then (.confirmPage, s)
    else
      (.redirectToProfile viewer,
        { s with
          posts := s.posts.filter (fun p => !(p.id == post_id))
          comments := s.comments.filter (fun c => !(c.post == post_id)) })

/-- `delete_comment` (views.py lines 224-242): fetch the viewer's own
comment of the post or 404; a non-POST request renders the confirmation
page; a POST deletes the comment and redirects to the post detail page. -/
def delete_comment (s : Store) (viewer : Nat) (method : String)
    (post_id comment_id : Nat) : DeleteResponse × Store :=
  match findOwnedComment s viewer post_id comment_id with
  | none => (.notFound, s)
  | some _ =>
    if method != "POST" then (.confirmPage, s)
    else
      (.redirectToDetail post_id,
        { s with
          comments := s.comments.filter (fun c => !(c.id == comment_id)) })

/-- Replace a post's location, leaving every other field unchanged. -/
def Post.withLocation (p : Post) (loc : Option Nat) : Post :=
  { p with location := loc }

/-- The ordering the spec claims for listings: `pub_date` descending with
ties broken by `id` descending. -/
def listingOrderedDesc (l : List (Post × Nat)) : Prop :=
  l.Pairwise (fun a b =>
    b.1.pub_date < a.1.pub_date ∨
      (a.1.pub_date = b.1.pub_date ∧ b.1.id < a.1.id))

/-- The ordering the code actually produces for listings: `pub_date`
descending with ties kept in underlying table order, i.e. `id` ascending. -/
def listingOrderedStable (l : List (Post × Nat)) : Prop :=
  l.Pairwise (fun a b =>
    b.1.pub_date < a.1.pub_date ∨
      (a.1.pub_date = b.1.pub_date ∧ a.1.id < b.1.id))

/-- The ordering of a post's comment list: `created_at` ascending with ties
in table order, i.e. `id` ascending. -/
def commentsOrderedStable (l : List Comment) : Prop :=
  l.Pairwise (fun a b =>
    a.created_at < b.created_at ∨
      (a.created_at = b.created_at ∧ a.id < b.id))

/-- A published category used by the concrete examples. -/
def demoCategory : Category :=
  { id := 1, slug := "demo", is_published := true }

/-- A published post with a past `pub_date` in `demoCategory`. -/
def demoPost : Post :=
  { id := 1, title := "a", pub_date := 5, author := 1, location := none
    category := some 1, is_published := true }

/-- A published comment on `demoPost`. -/
def demoComment1 : Comment :=
  { id := 1, post := 1, author := 2, text := "x", created_at := 5
    is_published := true }

/-- An unpublished comment on `demoPost`, same `created_at` as the first. -/
def demoComment2 : Comment :=
  { id := 2, post := 1, author := 3, text := "y", created_at := 5
    is_published := false }

/-- Concrete store: one category, one post, two comments. -/
def demoStore : Store :=
  { categories := [demoCategory], locations := [], posts := [demoPost]
    comments := [demoComment1, demoComment2] }

/-- A second post with the same `pub_date` as `demoPost` and a larger id. -/
def tiePost : Post :=
  { id := 2, title := "b", pub_date := 5, author := 1, location := none
    category := some 1, is_published := true }

/-- Concrete store with two published posts sharing one `pub_date`. -/
def tieStore : Store :=
  { categories := [demoCategory], locations := [], posts := [demoPost, tiePost]
    comments := [] }

/-- A post whose category foreign key is null while it is itself published
with a past `pub_date` — the administrator-deleted-category situation the
spec discusses. -/
def nullCategoryPost : Post :=
  { id := 1, title := "n", pub_date := 0, author := 1, location := none
    category := none, is_published := true }

/-- Concrete store holding only `nullCategoryPost`. -/
def nullCategoryStore : Store :=
  { categories := [], locations := [], posts := [nullCategoryPost]
    comments := [] }

/-- `insertLe` adds exactly the inserted element to the list's members. -/
theorem mem_insertLe {key : α → Int} {x y : α} {l : List α} :
    y ∈ insertLe key x l ↔ y = x ∨ y ∈ l := by
  induction l with
  | nil => simp [insertLe]
  | cons z zs ih =>
    by_cases h : key x ≤ key z
    · simp [insertLe, h]
    · simp only [insertLe, if_neg h, List.mem_cons, ih]
      tauto

/-- `orderBy` preserves the members of the list. -/
theorem mem_orderBy {key : α → Int} {y : α} {l : List α} :
    y ∈ orderBy key l ↔ y ∈ l := by
  induction l with
  | nil => simp [orderBy]
  | cons x xs ih => simp [orderBy, mem_insertLe, ih]

/-- Inserting into a list sorted on `key` keeps it sorted on `key`. -/
theorem pairwise_le_insertLe {key : α → Int} {x : α} {l : List α}
    (hl : l.Pairwise (fun a b => key a ≤ key b)) :
    (insertLe key x l).Pairwise (fun a b => key a ≤ key b) := by
  induction l with
  | nil => simp [insertLe]
  | cons y ys ih =>
    rw [List.pairwise_cons] at hl
    by_cases h : key x ≤ key y
    · simp only [insertLe, if_pos h]
      refine List.pairwise_cons.mpr ⟨?_, List.pairwise_cons.mpr hl⟩
      intro z hz
      rcases List.mem_cons.mp hz with rfl | hz
      · exact h
      · exact le_trans h (hl.1 z hz)
    · simp only [insertLe, if_neg h]
      refine List.pairwise_cons.mpr ⟨?_, ih hl.2⟩
      intro z hz
      rcases mem_insertLe.mp hz with rfl | hz
      · exact le_of_not_le h
      · exact hl.1 z hz

/-- The output of `orderBy` is sorted on the key. -/
theorem pairwise_le_orderBy {key : α → Int} (l : List α) :
    (orderBy key l).Pairwise (fun a b => key a ≤ key b) := by
  induction l with
  | nil => exact List.Pairwise.nil
  | cons x xs ih => exact pairwise_le_insertLe ih

/-- Stability of `insertLe`, phrased through a strictly increasing auxiliary
key: inserting an element whose auxiliary key is below everything in the
list keeps the list lexicographically sorted on (key, aux). -/
theorem pairwise_lex_insertLe {key aux : α → Int} {x : α} {l : List α}
    (hsort : l.Pairwise (fun a b => key a ≤ key b))
    (hlex : l.Pairwise
      (fun a b => key a < key b ∨ (key a = key b ∧ aux a < aux b)))
    (hx : ∀ y ∈ l, aux x < aux y) :
    (insertLe key x l).Pairwise
      (fun a b => key a < key b ∨ (key a = key b ∧ aux a < aux b)) := by
  induction l with
  | nil => simp [insertLe]
  | cons y ys ih =>
    rw [List.pairwise_cons] at hsort hlex
    by_cases h : key x ≤ key y
    · simp only [insertLe, if_pos h]
      refine List.pairwise_cons.mpr ⟨?_, List.pairwise_cons.mpr hlex⟩
      intro z hz
      rcases List.mem_cons.mp hz with rfl | hz
      · rcases lt_or_eq_of_le h with hlt | heq
        · exact Or.inl hlt
        · exact Or.inr ⟨heq, hx z (List.mem_cons_self _ _)⟩
      · rcases lt_or_eq_of_le (le_trans h (hsort.1 z hz)) with hlt | heq
        · exact Or.inl hlt
        · exact Or.inr ⟨heq, hx z (List.mem_cons_of_mem y hz)⟩
    · simp only [insertLe, if_neg h]
      refine List.pairwise_cons.mpr
        ⟨?_, ih hsort.2 hlex.2 (fun z hz => hx z (List.mem_cons_of_mem y hz))⟩
      intro z hz
      rcases mem_insertLe.mp hz with rfl | hz
      · exact Or.inl (not_le.mp h)
      · exact hlex.1 z hz

/-- Stability of `orderBy`: on a list whose auxiliary key is strictly
increasing (the table in primary-key order), the result is sorted
lexicographically on (key, aux). -/
theorem pairwise_lex_orderBy {key aux : α → Int} {l : List α}
    (h : l.Pairwise (fun a b => aux a < aux b)) :
    (orderBy key l).Pairwise
      (fun a b => key a < key b ∨ (key a = key b ∧ aux a < aux b)) := by
  induction l with
  | nil => simp [orderBy]
  | cons x xs ih =>
    rw [List.pairwise_cons] at h
    exact pairwise_lex_insertLe (pairwise_le_orderBy xs) (ih h.2)
      (fun y hy => h.1 y (mem_orderBy.mp hy))

/-- A filtered count splits into the rows also satisfying a second test and
the rows failing it. -/
theorem length_filter_split (q r : α → Bool) (l : List α) :
    (l.filter q).length =
      (l.filter (fun x => q x && r x)).length
        + (l.filter (fun x => q x && !r x)).length := by
  induction l with
  | nil => simp
  | cons x xs ih =>
    by_cases hq : q x
    · by_cases hr : r x <;>
        simp [List.filter_cons, hq, hr, ih] <;> omega
    · simp [List.filter_cons, hq, ih]

/-- Two filters over the same list commute. -/
theorem filter_swap (f g : α → Bool) (l : List α) :
    (l.filter f).filter g = (l.filter g).filter f := by
  induction l with
  | nil => rfl
  | cons x xs ih =>
    by_cases hf : f x <;> by_cases hg : g x <;>
      simp [List.filter_cons, hf, hg, ih]

/-- A map that does not change the value of the filter test commutes with
the filter. -/
theorem filter_map_comm (g : α → α) (f : α → Bool)
    (h : ∀ a, f (g a) = f a) (l : List α) :
    (l.map g).filter f = (l.filter f).map g := by
  induction l with
  | nil => rfl
  | cons x xs ih =>
    by_cases hf : f x
    · simp [List.filter_cons, h x, hf, ih]
    · simp [List.filter_cons, h x, hf, ih]

/-- Sorting comments on `created_at` with the stable sort yields a list
ordered by `created_at` with ties in id-ascending order, whenever the input
list is in id-ascending order. -/
theorem commentsOrdered_orderBy {l : List Comment}
    (h : l.Pairwise (fun a b => a.id < b.id)) :
    commentsOrderedStable (orderBy (fun c => c.created_at) l) := by
  have h2 : l.Pairwise (fun a b => ((a.id : Int)) < ((b.id : Int))) :=
    h.imp (fun hab => by exact_mod_cast hab)
  have h3 := @pairwise_lex_orderBy Comment (fun c => c.created_at)
    (fun c => (c.id : Int)) _ h2
  unfold commentsOrderedStable
  refine h3.imp (fun hab => ?_)
  rcases hab with h4 | ⟨h4, h5⟩
  · exact Or.inl h4
  · exact Or.inr ⟨h4, by simpa using h5⟩

/-- The annotated listing is ordered by `pub_date` descending with ties in
id-ascending order whenever the queryset is in id-ascending order. -/
theorem listingOrdered_annotate (s : Store) {qs : List Post}
    (h : qs.Pairwise (fun a b => a.id < b.id)) :
    listingOrderedStable (annotate_posts_with_comments s qs) := by
  have h2 : (qs.map (fun p => (p, comment_count s p))).Pairwise
      (fun a b => ((a.1.id : Int)) < ((b.1.id : Int))) := by
    rw [List.pairwise_map]
    exact h.imp (fun hab => by exact_mod_cast hab)
  have h3 := @pairwise_lex_orderBy (Post × Nat) (fun pc => -pc.1.pub_date)
    (fun pc => (pc.1.id : Int)) _ h2
  unfold listingOrderedStable annotate_posts_with_comments
  refine h3.imp (fun hab => ?_)
  rcases hab with h4 | ⟨h4, h5⟩
  · exact Or.inl (by exact neg_lt_neg_iff.mp h4)
  · exact Or.inr ⟨neg_inj.mp h4, by simpa using h5⟩

/-- Claim C1 (code bug): the spec requires the visibility predicate to be
false for every null-category post. The queryset filter
`PostQuerySet.published` does evaluate to false there, but the inline
visibility computation of `post_detail` dereferences `post.category` and so
raises `AttributeError` (an HTTP 500, modelled as `none` /
`attributeError`) as soon as a null-category post is published with a past
`pub_date`, instead of treating the post as not visible. -/
theorem C1_null_category_visibility :
    publishedPred nullCategoryStore 0 nullCategoryPost = false ∧
    nullCategoryPost.is_published = true ∧
    nullCategoryPost.pub_date ≤ 0 ∧
    nullCategoryPost.category = none ∧
    post_is_available nullCategoryStore 0 nullCategoryPost = none ∧
    post_detail nullCategoryStore (some 2) 1 0 = .attributeError := by
  decide

/-- Claim C2 (code bug): the detail view should succeed for the post's
author and answer NotFound to everyone else, but on a published,
past-dated post whose category is null it raises `AttributeError` for every
viewer — the author included — so it neither succeeds nor returns
NotFound. -/
theorem C2_detail_crash_on_null_category :
    post_detail nullCategoryStore (some nullCategoryPost.author) 1 0
        = .attributeError ∧
    post_detail nullCategoryStore none 1 0 = .attributeError := by
  decide

/-- Claim C3 is refuted here: the home-page listing of two published posts
sharing one `pub_date` keeps them in id-ascending order, so the resulting
sequence is not ordered by `(pub_date desc, id desc)`. -/
theorem C3_counterexample :
    index_posts tieStore 10 = [(demoPost, 0), (tiePost, 0)] ∧
    demoPost.pub_date = tiePost.pub_date ∧ demoPost.id < tiePost.id ∧
    ¬ listingOrderedDesc (index_posts tieStore 10) := by
  refine ⟨by decide, by decide, by decide, ?_⟩
  intro h
  have heq : index_posts tieStore 10 = [(demoPost, 0), (tiePost, 0)] := by
    decide
  unfold listingOrderedDesc at h
  rw [heq] at h
  have h2 := (List.pairwise_cons.mp h).1 (tiePost, 0) (by simp)
  rcases h2 with h3 | h3
  · exact absurd h3 (by decide)
  · exact absurd h3.2 (by decide)

/-- Claim C3 (amended): every listing is ordered by `pub_date` descending;
when the underlying queryset is in id-ascending (table) order the ties come
out id-ascending — the reverse of the claimed tie-break — and the query is
deterministic: re-running it on the same inputs yields the same
sequence. -/
theorem C3_listing_order (s : Store) (qs : List Post)
    (hids : qs.Pairwise (fun a b => a.id < b.id)) :
    ((annotate_posts_with_comments s qs).Pairwise
      (fun a b => b.1.pub_date ≤ a.1.pub_date)) ∧
    listingOrderedStable (annotate_posts_with_comments s qs) ∧
    annotate_posts_with_comments s qs = annotate_posts_with_comments s qs := by
  refine ⟨?_, listingOrdered_annotate s hids, rfl⟩
  unfold annotate_posts_with_comments
  have h := @pairwise_le_orderBy (Post × Nat) (fun pc => -pc.1.pub_date)
    (qs.map (fun p => (p, comment_count s p)))
  exact h.imp (fun hab => neg_le_neg_iff.mp hab)

/-- Witness for the amended claim C3 at a concrete two-post store. -/
theorem C3_witness :
    listingOrderedStable
      (annotate_posts_with_comments tieStore [demoPost, tiePost]) :=
  (C3_listing_order tieStore [demoPost, tiePost] (by decide)).2.1

/-- Claim C4 is refuted here: a viewer who is not the comment's author gets
NotFound from the comment mutation views, not a redirect to the read-only
detail page, so the soft-denial rule is not uniform across the four
operations. -/
theorem C4_counterexample :
    demoComment1 ∈ demoStore.comments ∧ demoComment1.author ≠ 3 ∧
    edit_comment demoStore 3 1 1 = .notFound ∧
    (delete_comment demoStore 3 "GET" 1 1).1 = .notFound ∧
    post_edit demoStore 3 1 = .redirectToDetail 1 := by
  decide

/-- Claim C4 (amended): for an authenticated viewer who is not the author,
post edit and post delete soft-deny by redirecting to the post's detail
page, while comment edit and comment delete fail with NotFound, because
their lookup filters on `author=request.user`. -/
theorem C4_mutation_denial (s : Store) (viewer pid cid : Nat)
    (method : String) (p : Post)
    (hp : findPost s pid = some p) (hpa : p.author ≠ viewer)
    (hc : ∀ c ∈ s.comments, c.id = cid → c.post = pid → c.author ≠ viewer) :
    post_edit s viewer pid = .redirectToDetail pid ∧
    delete_post s viewer method pid = (.redirectToDetail pid, s) ∧
    edit_comment s viewer pid cid = .notFound ∧
    (delete_comment s viewer method pid cid).1 = .notFound := by
  have hne : (p.author != viewer) = true := by
    simpa using hpa
  have hno : findOwnedComment s viewer pid cid = none := by
    rw [findOwnedComment, List.find?_eq_none]
    intro c hcmem hcb
    simp only [Bool.and_eq_true, beq_iff_eq] at hcb
    exact hc c hcmem hcb.1.1 hcb.1.2 hcb.2
  refine ⟨?_, ?_, ?_, ?_⟩
  · rw [post_edit, hp]
    simp [hne]
  · rw [delete_post, hp]
    simp [hne]
  · rw [edit_comment, hno]
  · rw [delete_comment, hno]

/-- Witness for the amended claim C4: viewer 3 owns neither the post nor
the comment of the concrete store. -/
theorem C4_witness :
    post_edit demoStore 3 1 = .redirectToDetail 1 ∧
    delete_post demoStore 3 "GET" 1 = (.redirectToDetail 1, demoStore) ∧
    edit_comment demoStore 3 1 1 = .notFound ∧
    (delete_comment demoStore 3 "GET" 1 1).1 = .notFound :=
  C4_mutation_denial demoStore 3 1 1 "GET" demoPost (by decide) (by decide)
    (by decide)

/-- Claim C5: every annotated pair produced by
`annotate_posts_with_comments` carries the total number of comment rows
referencing the post: the published ones plus the unpublished ones, with no
condition on their publication state. -/
theorem C5_comment_count_total (s : Store) (qs : List Post) (pr : Post × Nat)
    (h : pr ∈ annotate_posts_with_comments s qs) :
    pr.2 = (s.comments.filter
        (fun c => c.post == pr.1.id && c.is_published)).length
      + (s.comments.filter
        (fun c => c.post == pr.1.id && !c.is_published)).length := by
  unfold annotate_posts_with_comments at h
  rcases List.mem_map.mp (mem_orderBy.mp h) with ⟨p, hp, rfl⟩
  show comment_count s p = _
  rw [comment_count, commentRows]
  exact length_filter_split (fun c => c.post == p.id)
    (fun c => c.is_published) s.comments

/-- Witness for claim C5 at a concrete store holding one published and one
unpublished comment on the post. -/
theorem C5_witness :
    ((demoPost, comment_count demoStore demoPost) : Post × Nat).2
      = (demoStore.comments.filter
          (fun c => c.post == demoPost.id && c.is_published)).length
        + (demoStore.comments.filter
          (fun c => c.post == demoPost.id && !c.is_published)).length :=
  C5_comment_count_total demoStore [demoPost]
    (demoPost, comment_count demoStore demoPost) (by decide)

/-- The paginator never reports zero pages: with a positive page size the
page count is at least one, also on an empty sequence. -/
theorem num_pages_pos (count per_page : Nat) (h : 0 < per_page) :
    0 < num_pages count per_page := by
  rw [num_pages]
  have h1 : 1 ≤ max 1 count := le_max_left 1 count
  exact Nat.div_pos (by omega) h

/-- Pages with the same resolved page number are equal. -/
theorem get_page_obj_congr {β : Type} (l : List β) (per : Nat)
    (a b : PageArg)
    (h : resolvePageNumber a (num_pages l.length per)
      = resolvePageNumber b (num_pages l.length per)) :
    get_page_obj l per a = get_page_obj l per b := by
  simp only [get_page_obj, h]

/-- Claim C6: the page size is the fixed constant 10; an absent or
non-numeric page number is treated as page 1; a page number above the page
count yields the last page; and the 25-item sequence paginates exactly as
the spec's scenario states. -/
theorem C6_pagination {β : Type} (l : List β) (n : Int)
    (hbig : ((num_pages l.length POSTS_PER_PAGE : Nat) : Int) < n) :
    POSTS_PER_PAGE = 10 ∧
    get_page_obj l POSTS_PER_PAGE .absent
      = get_page_obj l POSTS_PER_PAGE (.num 1) ∧
    get_page_obj l POSTS_PER_PAGE .nonNumeric
      = get_page_obj l POSTS_PER_PAGE (.num 1) ∧
    get_page_obj l POSTS_PER_PAGE (.num n)
      = get_page_obj l POSTS_PER_PAGE
          (.num (num_pages l.length POSTS_PER_PAGE)) ∧
    (get_page_obj (List.range 25) POSTS_PER_PAGE (.num 1)).items.length
      = 10 ∧
    (get_page_obj (List.range 25) POSTS_PER_PAGE (.num 1)).has_next
      = true ∧
    (get_page_obj (List.range 25) POSTS_PER_PAGE (.num 1)).has_previous
      = false ∧
    (get_page_obj (List.range 25) POSTS_PER_PAGE (.num 3)).items.length
      = 5 ∧
    (get_page_obj (List.range 25) POSTS_PER_PAGE (.num 3)).has_next
      = false ∧
    (get_page_obj (List.range 25) POSTS_PER_PAGE (.num 3)).has_previous
      = true ∧
    get_page_obj (List.range 25) POSTS_PER_PAGE (.num 99)
      = get_page_obj (List.range 25) POSTS_PER_PAGE (.num 3) := by
  have hpos : 0 < num_pages l.length POSTS_PER_PAGE :=
    num_pages_pos l.length POSTS_PER_PAGE (by decide)
  refine ⟨rfl, ?_, ?_, ?_, by decide, by decide, by decide, by decide,
    by decide, by decide, by decide⟩
  · refine get_page_obj_congr l POSTS_PER_PAGE _ _ ?_
    simp only [resolvePageNumber]
    rw [if_neg (by omega), if_neg (by omega)]
    decide
  · refine get_page_obj_congr l POSTS_PER_PAGE _ _ ?_
    simp only [resolvePageNumber]
    rw [if_neg (by omega), if_neg (by omega)]
    decide
  · refine get_page_obj_congr l POSTS_PER_PAGE _ _ ?_
    simp only [resolvePageNumber]
    rw [if_neg (by omega), if_pos hbig, if_neg (by omega), if_neg (by omega)]
    omega

/-- Witness for claim C6: page 99 of the 25-item sequence is the last
page. -/
theorem C6_witness :
    get_page_obj (List.range 25) POSTS_PER_PAGE (.num 99)
      = get_page_obj (List.range 25) POSTS_PER_PAGE
          (.num (num_pages (List.range 25).length POSTS_PER_PAGE)) :=
  (C6_pagination (List.range 25) 99 (by decide)).2.2.2.1

/-- Claim C7: whenever the detail view renders, the comment list holds
every comment of the post if the viewer is the author, exactly the
published ones otherwise, ordered by `created_at` ascending with ties in
id-ascending (table) order. -/
theorem C7_detail_comments (s : Store) (viewer : Option Nat) (pid : Nat)
    (now : Timestamp) (post : Post) (cs : List Comment)
    (h : post_detail s viewer pid now = .success post cs)
    (hids : s.comments.Pairwise (fun a b => a.id < b.id)) :
    (∀ c, c ∈ cs ↔
      c ∈ s.comments ∧ c.post = post.id ∧
        (viewer = some post.author ∨ c.is_published = true)) ∧
    commentsOrderedStable cs := by
  rw [post_detail] at h
  cases hfp : findPost s pid with
  | none =>
    rw [hfp] at h
    simp at h
  | some p =>
  rw [hfp] at h
  dsimp only at h
  cases hav : post_is_available s now p with
  | none =>
    rw [hav] at h
    simp at h
  | some avail =>
  rw [hav] at h
  dsimp only at h
  have hrows : (commentRows s p.id).Pairwise (fun a b => a.id < b.id) :=
    hids.sublist (List.filter_sublist s.comments)
  by_cases hgate : (!(avail || (viewer == some p.author))) = true
  · rw [if_pos hgate] at h
    exact absurd h (by simp)
  · rw [if_neg hgate] at h
    by_cases hauth : (viewer == some p.author) = true
    · rw [if_pos hauth] at h
      injection h with h1 h2
      subst h1
      subst h2
      have hveq : viewer = some p.author := beq_iff_eq.mp hauth
      refine ⟨?_, commentsOrdered_orderBy hrows⟩
      intro c
      rw [mem_orderBy, commentRows, List.mem_filter, beq_iff_eq]
      simp [hveq]
    · rw [if_neg hauth] at h
      injection h with h1 h2
      subst h1
      subst h2
      have hvne : ¬ viewer = some p.author := by
        simpa using hauth
      refine ⟨?_,
        commentsOrdered_orderBy (hrows.sublist (List.filter_sublist _))⟩
      intro c
      rw [mem_orderBy, List.mem_filter, commentRows, List.mem_filter,
        beq_iff_eq]
      simp [hvne, and_assoc]

/-- Witness for claim C7: the author of the concrete post receives both of
its comments, the unpublished one included, in stable order. -/
theorem C7_witness :
    (∀ c, c ∈ [demoComment1, demoComment2] ↔
      c ∈ demoStore.comments ∧ c.post = demoPost.id ∧
        ((some 1 : Option Nat) = some demoPost.author ∨
          c.is_published = true)) ∧
    commentsOrderedStable [demoComment1, demoComment2] :=
  C7_detail_comments demoStore (some 1) 1 10 demoPost
    [demoComment1, demoComment2] (by decide) (by decide)

/-- Claim C8: the `PublishedManager` queryset used by the home page and the
`published()` filter used by the category and profile pages agree: the row
predicate equals the spec's visibility predicate, a post is in the
manager's queryset exactly when it is stored and satisfies that predicate,
and the filtered querysets of the category and profile scopes are the
manager's queryset restricted to the scope. -/
theorem C8_manager_filter_agree (s : Store) (now : Timestamp) (p : Post)
    (cid uid : Nat) :
    (publishedPred s now p = spec_is_publicly_visible s now p) ∧
    (p ∈ publishedManagerQueryset s now ↔
      p ∈ s.posts ∧ spec_is_publicly_visible s now p = true) ∧
    published s now (s.posts.filter (fun q => q.category == some cid))
      = (publishedManagerQueryset s now).filter
          (fun q => q.category == some cid) ∧
    published s now (s.posts.filter (fun q => q.author == uid))
      = (publishedManagerQueryset s now).filter
          (fun q => q.author == uid) := by
  have hpred : ∀ q : Post,
      publishedPred s now q = spec_is_publicly_visible s now q := by
    intro q
    rw [publishedPred, spec_is_publicly_visible, categoryIsPublished]
    cases q.category with
    | none => simp
    | some c => cases findCategory s c <;> simp [Option.bind]
  refine ⟨hpred p, ?_, ?_, ?_⟩
  · rw [publishedManagerQueryset, published, List.mem_filter, hpred p]
  · rw [publishedManagerQueryset, published, published]
    exact filter_swap _ _ s.posts
  · rw [publishedManagerQueryset, published, published]
    exact filter_swap _ _ s.posts

/-- Claim C9 is refuted here: a non-author's GET request to `delete_post`
does leave the store unchanged, but it is answered with a redirect to the
detail page, not with the confirmation view the claim promises for every
non-POST request. -/
theorem C9_counterexample :
    (delete_post demoStore 3 "GET" 1).1 = .redirectToDetail 1 ∧
    (delete_post demoStore 3 "GET" 1).1 ≠ .confirmPage ∧
    (delete_post demoStore 3 "GET" 1).2 = demoStore ∧
    demoPost.author ≠ 3 := by
  decide

/-- Claim C9 (amended): a non-POST request to either delete view never
changes the store, and it renders the confirmation view when the requester
owns the entity (a non-author is redirected for posts and gets NotFound
for comments); the store changes only on an owning author's POST, which
removes the entity. -/
theorem C9_delete_frame (s : Store) (viewer pid cid : Nat)
    (method : String) :
    (method ≠ "POST" →
      (delete_post s viewer method pid).2 = s ∧
      (delete_comment s viewer method pid cid).2 = s) ∧
    (∀ p, findPost s pid = some p → p.author = viewer → method ≠ "POST" →
      (delete_post s viewer method pid).1 = .confirmPage) ∧
    (∀ c, findOwnedComment s viewer pid cid = some c → method ≠ "POST" →
      (delete_comment s viewer method pid cid).1 = .confirmPage) ∧
    ((delete_post s viewer method pid).2 ≠ s →
      method = "POST" ∧ ∃ p, findPost s pid = some p ∧ p.author = viewer) ∧
    ((delete_comment s viewer method pid cid).2 ≠ s →
      method = "POST" ∧ ∃ c, findOwnedComment s viewer pid cid = some c) ∧
    (∀ p, findPost s pid = some p → p.author = viewer → method = "POST" →
      findPost (delete_post s viewer method pid).2 pid = none) ∧
    (∀ c, findOwnedComment s viewer pid cid = some c → method = "POST" →
      ((delete_comment s viewer method pid cid).2.comments.find?
        (fun d => d.id == cid)) = none) := by
  have hpost : ∀ hfp : Option Post, findPost s pid = hfp →
      delete_post s viewer method pid =
        (match hfp with
         | none => (.notFound, s)
         | some post =>
           if post.author != viewer then (.redirectToDetail pid, s)
           else if method != "POST" then (.confirmPage, s)
           else
             (.redirectToProfile viewer,
               { s with
                 posts := s.posts.filter (fun p => !(p.id == pid))
                 comments := s.comments.filter
                   (fun c => !(c.post == pid)) })) := by
    intro hfp heq
    rw [delete_post, heq]
  have hcomm : ∀ hfc : Option Comment,
      findOwnedComment s viewer pid cid = hfc →
      delete_comment s viewer method pid cid =
        (match hfc with
         | none => (.notFound, s)
         | some _ =>
           if method != "POST" then (.confirmPage, s)
           else
             (.redirectToDetail pid,
               { s with
                 comments := s.comments.filter
                   (fun c => !(c.id == cid)) })) := by
    intro hfc heq
    rw [delete_comment, heq]
  refine ⟨?_, ?_, ?_, ?_, ?_, ?_, ?_⟩
  · intro hm
    have hmb : (method != "POST") = true := by simpa using hm
    constructor
    · rw [hpost (findPost s pid) rfl]
      cases findPost s pid with
      | none => rfl
      | some p =>
        dsimp only
        by_cases ha : (p.author != viewer) = true
        · rw [if_pos ha]
        · rw [if_neg ha, if_pos hmb]
    · rw [hcomm (findOwnedComment s viewer pid cid) rfl]
      cases findOwnedComment s viewer pid cid with
      | none => rfl
      | some c =>
        dsimp only
        rw [if_pos hmb]
  · intro p hp hpa hm
    have hmb : (method != "POST") = true := by simpa using hm
    rw [hpost _ hp]
    dsimp only
    rw [if_neg (by simp [hpa]), if_pos hmb]
  · intro c hc hm
    have hmb : (method != "POST") = true := by simpa using hm
    rw [hcomm _ hc]
    dsimp only
    rw [if_pos hmb]
  · intro hchg
    rw [hpost (findPost s pid) rfl] at hchg
    cases hfp : findPost s pid with
    | none => rw [hfp] at hchg; simp at hchg
    | some p =>
      rw [hfp] at hchg
      dsimp only at hchg
      by_cases ha : (p.author != viewer) = true
      · rw [if_pos ha] at hchg
        simp at hchg
      · by_cases hmb : (method != "POST") = true
        · rw [if_neg ha, if_pos hmb] at hchg
          simp at hchg
        · refine ⟨by simpa using hmb, p, rfl, by simpa using ha⟩
  · intro hchg
    rw [hcomm (findOwnedComment s viewer pid cid) rfl] at hchg
    cases hfc : findOwnedComment s viewer pid cid with
    | none => rw [hfc] at hchg; simp at hchg
    | some c =>
      rw [hfc] at hchg
      dsimp only at hchg
      by_cases hmb : (method != "POST") = true
      · rw [if_pos hmb] at hchg
        simp at hchg
      · exact ⟨by simpa using hmb, c, rfl⟩
  · intro p hp hpa hm
    rw [hpost _ hp]
    dsimp only
    rw [if_neg (by simp [hpa]), if_neg (by simp [hm])]
    rw [findPost]
    dsimp only
    rw [List.find?_eq_none]
    intro q hq
    rcases List.mem_filter.mp hq with ⟨hq1, hq2⟩
    simpa using hq2
  · intro c hc hm
    rw [hcomm _ hc]
    dsimp only
    rw [if_neg (by simp [hm])]
    dsimp only
    rw [List.find?_eq_none]
    intro d hd
    rcases List.mem_filter.mp hd with ⟨hd1, hd2⟩
    simpa using hd2

/-- Witness for the amended claim C9 at the concrete store: the author's
GET leaves the store intact and shows the confirmation page, the owner's
GET on the comment likewise, and the author's POST removes the post. -/
theorem C9_witness :
    (delete_post demoStore 1 "GET" 1).2 = demoStore ∧
    (delete_post demoStore 1 "GET" 1).1 = .confirmPage ∧
    (delete_comment demoStore 2 "GET" 1 1).1 = .confirmPage ∧
    findPost (delete_post demoStore 1 "POST" 1).2 1 = none :=
  ⟨((C9_delete_frame demoStore 1 1 1 "GET").1 (by decide)).1,
   (C9_delete_frame demoStore 1 1 1 "GET").2.1 demoPost (by decide)
     (by decide) (by decide),
   (C9_delete_frame demoStore 2 1 1 "GET").2.2.1 demoComment1 (by decide)
     (by decide),
   (C9_delete_frame demoStore 1 1 1 "POST").2.2.2.2.2.1 demoPost (by decide)
     (by decide) (by decide)⟩

/-- Claim C10: visibility never reads the post's location. Changing only
the location leaves the queryset row predicate and the detail view's
availability computation unchanged, and relocating the posts of any
queryset commutes with the `published()` filter, so membership in every
published listing is unchanged as well. -/
theorem C10_location_independent (s : Store) (now : Timestamp) (p : Post)
    (loc : Option Nat) (qs : List Post) (f : Post → Option Nat) :
    publishedPred s now (p.withLocation loc) = publishedPred s now p ∧
    post_is_available s now (p.withLocation loc)
      = post_is_available s now p ∧
    published s now (qs.map (fun q => q.withLocation (f q)))
      = (published s now qs).map (fun q => q.withLocation (f q)) := by
  have hpred : ∀ (q : Post) (l : Option Nat),
      publishedPred s now (q.withLocation l) = publishedPred s now q := by
    intro q l
    rfl
  refine ⟨hpred p loc, rfl, ?_⟩
  rw [published, published]
  exact filter_map_comm _ _ (fun a => hpred a (f a)) qs

end Blogicum
